import Mathlib

/-!
Verification development for the Ryanair price-monitoring bot.

The repository polls the Ryanair cheapestPerDay endpoint for the fixed
AGA to FEZ route, derives a lowest available fare, keeps per-user price
alerts in a JSON file, and on a 30 minute loop notifies every active
alert whose target is at or above the current lowest price.

This file gives a shallow embedding of the relevant functions:
  - telegram_bot.py : get_current_lowest_price, set_alert_command,
    check_alerts_job (delivery loop), load_alerts / save_alerts
  - bot.py : get_flights / get_lowest, check_alerts, cmd_alert,
    cmd_stopalert, load_alerts / save_alerts
  - ryanair_api.py : get_cheapest_fares (window arithmetic),
    format_cheapest_fares (fare selection)
  - check_flights.py : display_flights (fare selection)

Network effects are passed in explicitly: a fetch is an
Except Unit (List (Option RawFare)) value, the outcome of a disk write is
a Bool, the notifier is a function String to Bool. Python float prices are
modelled as rationals, dates that the code keeps as ISO strings stay
strings, and the provider JSON shape is kept: list entries can be null,
price objects can be absent, and price values can be absent or zero.
-/

namespace Ryanair

/-- Price object of one fare entry in the provider JSON. The value can be
absent (key missing or null) and so can the currency code. -/
structure Price where
  value : Option ℚ
  currencyCode : Option String
deriving DecidableEq

/-- One per-day fare entry of the cheapestPerDay response, as the Python
code reads it. A null entry of the fares array is modelled by wrapping in
Option at the use sites. -/
structure RawFare where
  day : String
  price : Option Price
  departureDate : Option String
  arrivalDate : Option String
  unavailable : Bool
deriving DecidableEq

/-- Byte-wise comparison of character lists, the order Python uses when it
compares ISO date strings. -/
def strLtB : List Char → List Char → Bool
  | [], [] => false
  | [], _ :: _ => true
  | _ :: _, [] => false
  | a :: as, b :: bs =>
    if a.val < b.val then true else if b.val < a.val then false else strLtB as bs

/-- String order used for the earliest-date reading of the specification:
a is at or before b. On ISO formatted dates this is chronological order. -/
def strLeB (a b : String) : Bool := !(strLtB b.data a.data)

/-- The price value reachable from a fare entry, if any. -/
def specValue (f : RawFare) : Option ℚ := f.price.bind Price.value

/-- Availability in the sense of the specification: the fare is not
flagged unavailable and carries a strictly positive price value. -/
def specAvailB (f : RawFare) : Bool :=
  !f.unavailable &&
    (match specValue f with
     | some v => decide (0 < v)
     | none => false)

/-! ## telegram_bot.py : get_current_lowest_price -/

/-- Candidate test of the loop body in get_current_lowest_price
(telegram_bot.py lines 80 to 88): a fare entry contributes when it is not
flagged unavailable and its price object carries a truthy value, that is
a value that is present and nonzero. -/
def fareCandidate (f : RawFare) : Option ℚ :=
  if f.unavailable then none
  else
    match f.price with
    | none => none
    | some p =>
      match p.value with
      | none => none
      | some v => if v = 0 then none else some v

/-- Currency read when the loop updates its best fare:
price.get with default MAD, after price itself defaults to the empty
dict (telegram_bot.py line 88). -/
def fareCurrency (f : RawFare) : String :=
  match f.price with
  | none => "MAD"
  | some p => p.currencyCode.getD "MAD"

/-- The accumulator loop of get_current_lowest_price: the accumulator
holds the best (value, day, currency) so far, none standing for the
initial infinite price. An entry replaces the accumulator only when its
value is strictly smaller, so the first entry attaining the minimum is
kept on ties. -/
def lowestLoop :
    List (Option RawFare) → Option (ℚ × String × String) → Option (ℚ × String × String)
  | [], acc => acc
  | f? :: rest, acc =>
    match f? with
    | none => lowestLoop rest acc
    | some f =>
      match fareCandidate f with
      | none => lowestLoop rest acc
      | some v =>
        match acc with
        | none => lowestLoop rest (some (v, f.day, fareCurrency f))
        | some (best, d, c) =>
          if v < best then lowestLoop rest (some (v, f.day, fareCurrency f))
          else lowestLoop rest (some (best, d, c))

/-- get_current_lowest_price (telegram_bot.py lines 56 to 97). The fetch
argument is the outcome of api.get_cheapest_fares: an exception gives the
error case, which the function catches and turns into none; an empty
fares list returns none before the loop; otherwise the loop runs and none
is returned exactly when the running price stayed infinite. -/
def getCurrentLowestPrice (fetch : Except Unit (List (Option RawFare))) :
    Option (ℚ × String × String) :=
  match fetch with
  | .error _ => none
  | .ok fares => if fares.isEmpty then none else lowestLoop fares none

/-! ## bot.py : get_flights, get_lowest, check_alerts -/

/-- Normalized flight record built by the comprehension in get_flights
(bot.py lines 66 to 71). -/
structure Flight where
  date : String
  price : ℚ
  currency : String
  dep : String
  arr : String
deriving DecidableEq

/-- The time slice expression used for departure and arrival: text
characters 11 to 15 when the field is present and truthy, N/A otherwise
(bot.py lines 68 to 69). -/
def sliceTime (s : Option String) : String :=
  match s with
  | none => "N/A"
  | some t => if t = "" then "N/A" else String.mk ((t.data.drop 11).take 5)

/-- Builds the flight dict of one selected fare entry. Reading a missing
price value or currency code raises a KeyError inside the comprehension,
modelled as the error case; the caller catches it. -/
def botFlightOfFare (f : RawFare) : Except Unit Flight :=
  match f.price with
  | none => .error ()
  | some p =>
    match p.value, p.currencyCode with
    | some v, some c =>
      .ok ⟨f.day, v, c, sliceTime f.departureDate, sliceTime f.arrivalDate⟩
    | _, _ => .error ()

/-- The list comprehension of get_flights (bot.py lines 66 to 71):
entries that are null, lack a price object, or are flagged unavailable
are filtered out; an exception while building a selected entry aborts the
whole comprehension. -/
def botCollect : List (Option RawFare) → Except Unit (List Flight)
  | [] => .ok []
  | f? :: rest =>
    match f? with
    | none => botCollect rest
    | some f =>
      if f.price.isSome && !f.unavailable then
        match botFlightOfFare f with
        | .error e => .error e
        | .ok fl =>
          match botCollect rest with
          | .error e => .error e
          | .ok fls => .ok (fl :: fls)
      else botCollect rest

/-- Stable insertion into a price-sorted list: the new flight goes before
the first flight whose price is not strictly smaller, so earlier flights
stay first among equal prices. -/
def insertByPrice (x : Flight) : List Flight → List Flight
  | [] => [x]
  | y :: ys => if y.price < x.price then y :: insertByPrice x ys else x :: y :: ys

/-- Stable sort by price, modelling the Python sorted call with the price
key (Python sorted is a stable sort). -/
def sortByPrice : List Flight → List Flight
  | [] => []
  | x :: xs => insertByPrice x (sortByPrice xs)

/-- get_flights (bot.py lines 60 to 73): a fetch exception, or an
exception while normalizing, is caught by the bare except and becomes an
empty list; otherwise the selected fares are returned sorted by price. -/
def botGetFlights (fetch : Except Unit (List (Option RawFare))) : List Flight :=
  match fetch with
  | .error _ => []
  | .ok fares =>
    match botCollect fares with
    | .error _ => []
    | .ok fls => sortByPrice fls

/-- get_lowest (bot.py lines 75 to 78): the head of the price-sorted
list, if any. -/
def botGetLowest (fetch : Except Unit (List (Option RawFare))) : Option Flight :=
  (botGetFlights fetch).head?

/-- One stored alert of bot.py: target price, channel id, active flag. -/
structure Alert where
  price : ℚ
  channel : Int
  active : Bool
deriving DecidableEq

/-- The alerts dict of bot.py, keyed by the user id string. -/
abbrev AlertMap := List (String × Alert)

/-- Python dict assignment m[k] = a: replaces the value at an existing
key, otherwise appends a new binding. -/
def insertAssoc {β : Type} (k : String) (a : β) : List (String × β) → List (String × β)
  | [] => [(k, a)]
  | (k0, v) :: rest =>
    if k0 = k then (k, a) :: rest else (k0, v) :: insertAssoc k a rest

/-- The per-subscription test of check_alerts (bot.py lines 292 to 294):
an alert is kept when it is active and the lowest price is at or below
its target. -/
def matchingAlerts (lowestPrice : ℚ) (alerts : AlertMap) : AlertMap :=
  alerts.filter (fun ua => ua.2.active && decide (lowestPrice ≤ ua.2.price))

/-- One tick of the background task check_alerts (bot.py lines 286 to
303), split at notification generation: the first component is the list
of matched subscriptions for which the loop builds and sends an alert
embed, the second is the alerts state after the tick. The loop only reads
the alerts dict, so the state is returned unchanged. When no lowest
flight is determinable the task returns with no notifications and raises
nothing. -/
def checkAlerts (fetch : Except Unit (List (Option RawFare))) (alerts : AlertMap) :
    AlertMap × AlertMap :=
  match botGetLowest fetch with
  | none => ([], alerts)
  | some fl => (matchingAlerts fl.price alerts, alerts)

/-- Delivery part of check_alerts (bot.py lines 296 to 303) applied to
the matched alerts: a matched alert whose channel does not resolve is
skipped silently; a send that raises propagates out of the loop, so
nothing after it is delivered and nothing is logged. The result is the
list of users delivered in order, paired with the user whose send raised,
if any. -/
def botDeliver (getChannel : Int → Bool) (send : String → Bool) :
    AlertMap → List String × Option String
  | [] => ([], none)
  | (u, a) :: rest =>
    if getChannel a.channel then
      if send u then
        ((botDeliver getChannel send rest).1.cons u, (botDeliver getChannel send rest).2)
      else ([], some u)
    else botDeliver getChannel send rest

/-! ## bot.py : persistence of the alerts dict -/

/-- In-memory alerts dict together with the content of alerts.json. -/
structure StoreState where
  mem : AlertMap
  disk : AlertMap
deriving DecidableEq

/-- save_alerts (bot.py lines 54 to 58): writes the in-memory dict to
disk; a write failure is swallowed by the bare except, leaving the disk
unchanged and reporting nothing to the caller. -/
def saveAlerts (writeOk : Bool) (s : StoreState) : StoreState :=
  if writeOk then { s with disk := s.mem } else s

/-- cmd_alert (bot.py lines 230 to 238): unconditionally overwrites the
subscription in memory with active true, calls save_alerts, and replies
with a success embed. The Bool result is the reported outcome, which is
always success. -/
def cmdAlert (uid : String) (price : ℚ) (channel : Int) (writeOk : Bool)
    (s : StoreState) : StoreState × Bool :=
  (saveAlerts writeOk { s with mem := insertAssoc uid ⟨price, channel, true⟩ s.mem }, true)

/-- Sets the active field of the entry at the given key to false, leaving
everything else alone. -/
def setInactive (uid : String) : AlertMap → AlertMap
  | [] => []
  | (k, v) :: rest =>
    if k = uid then (k, { v with active := false }) :: setInactive uid rest
    else (k, v) :: setInactive uid rest

/-- cmd_stopalert (bot.py lines 260 to 266): when the user has an entry,
deactivates it and saves; the reply is a success message in both cases. -/
def cmdStopAlert (uid : String) (writeOk : Bool) (s : StoreState) : StoreState × Bool :=
  if (List.lookup uid s.mem).isSome then
    (saveAlerts writeOk { s with mem := setInactive uid s.mem }, true)
  else (s, true)

/-- load_alerts (bot.py lines 46 to 52, same shape in telegram_bot.py
lines 35 to 44): when the alerts file exists its parsed content replaces
the in-memory dict, a read or parse failure is caught and leaves an empty
dict, and a missing file leaves the previous dict. The parsed argument is
none when opening or parsing the existing file raises. -/
def loadAlerts (fileExists : Bool) (parsed : Option AlertMap) (prev : AlertMap) : AlertMap :=
  if fileExists then
    match parsed with
    | some m => m
    | none => []
  else prev

/-! ## telegram_bot.py : alerts and the delivery loop -/

/-- One stored alert of telegram_bot.py: target price, active flag,
creation timestamp. -/
structure TAlert where
  targetPrice : ℚ
  active : Bool
  created : String
deriving DecidableEq

/-- The price_alerts dict of telegram_bot.py, keyed by the chat id. -/
abbrev TAlertMap := List (String × TAlert)

/-- set_alert_command (telegram_bot.py lines 296 to 301): overwrites the
alert of the chat with the new target, active true and the creation
timestamp, then saves. -/
def tgSetAlert (chatId : String) (target : ℚ) (created : String) (m : TAlertMap) :
    TAlertMap :=
  insertAssoc chatId ⟨target, true, created⟩ m

/-- The per-alert test of check_alerts_job (telegram_bot.py lines 444 to
450): active and lowest price at or below the target. -/
def tgMatching (lowestPrice : ℚ) (alerts : TAlertMap) : TAlertMap :=
  alerts.filter (fun ca => ca.2.active && decide (lowestPrice ≤ ca.2.targetPrice))

/-- Delivery loop of check_alerts_job (telegram_bot.py lines 444 to 472):
inactive or unmatched alerts are skipped; each matched chat gets exactly
one send attempt; a send failure is caught and printed and the loop
continues with the next chat. The result records every attempt in order
together with its outcome. -/
def tgDeliver (send : String → Bool) (lowestPrice : ℚ) :
    TAlertMap → List (String × Bool)
  | [] => []
  | (chat, a) :: rest =>
    if a.active then
      if lowestPrice ≤ a.targetPrice then
        (chat, send chat) :: tgDeliver send lowestPrice rest
      else tgDeliver send lowestPrice rest
    else tgDeliver send lowestPrice rest

/-! ## ryanair_api.py and check_flights.py : fare selection -/

/-- Selection test of one fares entry in format_cheapest_fares
(ryanair_api.py lines 262 to 268): the entry must be present and its
price object must carry a truthy (present and nonzero) value; the
unavailable flag is not consulted. -/
def fmtSelect (f? : Option RawFare) : Option RawFare :=
  match f? with
  | none => none
  | some f =>
    match f.price with
    | none => none
    | some p =>
      match p.value with
      | none => none
      | some v => if v = 0 then none else some f

/-- Fare selection of format_cheapest_fares: the kept list is what the
function sorts and prints, one line per fare. -/
def formatValidFares (fares : List (Option RawFare)) : List RawFare :=
  fares.filterMap fmtSelect

/-- Selection test of one fares entry in display_flights
(check_flights.py lines 47 to 48, and the same expression in cli.py lines
160 to 161): the entry must be present, have a truthy price object, and
not be flagged unavailable. An explicit zero price value passes, since
only the price dict itself is tested. -/
def displaySelect (f? : Option RawFare) : Option RawFare :=
  match f? with
  | none => none
  | some f =>
    match f.price with
    | none => none
    | some _ => if f.unavailable then none else some f

/-- Fare selection of display_flights: the kept list is what the function
sorts, prints as the lowest-price box, and lists line by line. -/
def displayValidFares (fares : List (Option RawFare)) : List RawFare :=
  fares.filterMap displaySelect

/-! ## ryanair_api.py : get_cheapest_fares window arithmetic -/

/-- Gregorian leap year rule, as implemented by the Python datetime
library used by strptime and timedelta. -/
def isLeap (y : ℕ) : Bool := (y % 4 == 0 && y % 100 != 0) || y % 400 == 0

/-- Length of a month in the proleptic Gregorian calendar. -/
def daysInMonth (y m : ℕ) : ℕ :=
  if m = 2 then (if isLeap y then 29 else 28)
  else if m = 4 ∨ m = 6 ∨ m = 9 ∨ m = 11 then 30
  else 31

/-- A calendar date, the post-parse form of the YYYY-MM-DD strings the
code passes around. -/
structure Date where
  year : ℕ
  month : ℕ
  day : ℕ
deriving DecidableEq

/-- A date the Python datetime library accepts. -/
abbrev ValidDate (d : Date) : Prop :=
  1 ≤ d.year ∧ 1 ≤ d.month ∧ d.month ≤ 12 ∧ 1 ≤ d.day ∧ d.day ≤ daysInMonth d.year d.month

/-- The calendar successor of a date. -/
def nextDay (d : Date) : Date :=
  if d.day < daysInMonth d.year d.month then ⟨d.year, d.month, d.day + 1⟩
  else if d.month < 12 then ⟨d.year, d.month + 1, 1⟩
  else ⟨d.year + 1, 1, 1⟩

/-- Adding a number of days to a date, the semantics of adding a Python
timedelta of that many days. -/
def addDays : ℕ → Date → Date
  | 0, d => d
  | n + 1, d => addDays n (nextDay d)

/-- The outboundDateTo parameter computed by get_cheapest_fares
(ryanair_api.py lines 133 to 136): the window end sent to the provider is
date_out plus flex_days times two days. -/
def cheapestFaresDateTo (dateOut : Date) (flexDays : ℕ) : Date :=
  addDays (flexDays * 2) dateOut

/-- Number of leap years in the interval from year 1 to year y. -/
def leapsBefore (y : ℕ) : ℕ := y / 4 + y / 400 - y / 100

/-- Days of the year strictly before the first of the given month. -/
def daysBeforeMonth (y m : ℕ) : ℕ :=
  (if m ≤ 1 then 0 else if m = 2 then 31 else if m = 3 then 59 else if m = 4 then 90
   else if m = 5 then 120 else if m = 6 then 151 else if m = 7 then 181
   else if m = 8 then 212 else if m = 9 then 243 else if m = 10 then 273
   else if m = 11 then 304 else 334)
  + (if 3 ≤ m ∧ isLeap y then 1 else 0)

/-- Ordinal day number of a date: day 1 is January 1 of year 1, matching
the toordinal function of the Python datetime library. -/
def toOrdinal (d : Date) : ℕ :=
  365 * (d.year - 1) + leapsBefore (d.year - 1) + daysBeforeMonth d.year d.month + d.day

/-! ## Specification-side predicates -/

/-- No fare entry of the list passes the candidate filter of the lowest
price query. -/
def NoCandidate (fares : List (Option RawFare)) : Prop :=
  ∀ f : RawFare, some f ∈ fares → fareCandidate f = none

/-- p is a lower bound of every candidate value in the list. -/
def IsMinCand (fares : List (Option RawFare)) (p : ℚ) : Prop :=
  ∀ f : RawFare, some f ∈ fares → ∀ v, fareCandidate f = some v → p ≤ v

/-- The returned triple comes from the first entry of the list that
attains the minimum candidate value: the list splits around a fare with
that value, day and currency, and every candidate strictly before it is
strictly more expensive. -/
def FirstMinWitness (fares : List (Option RawFare)) (p : ℚ) (d c : String) : Prop :=
  ∃ pre f post, fares = pre ++ some f :: post ∧ fareCandidate f = some p ∧
    f.day = d ∧ fareCurrency f = c ∧
    ∀ g : RawFare, some g ∈ pre → ∀ w, fareCandidate g = some w → p < w

/-- The earliest-date tie-break component of claim C1: whenever the
lowest price query answers with price p and date d, every available fare
of the set priced exactly p has a date at or after d. -/
def C1TieBreak (fares : List (Option RawFare)) : Prop :=
  ∀ p d c, getCurrentLowestPrice (Except.ok fares) = some (p, d, c) →
    ∀ f : RawFare, some f ∈ fares → specAvailB f = true → specValue f = some p →
      strLeB d f.day = true

/-! ## Concrete inputs used by counterexamples and witnesses -/

/-- Available fare on 2025-03-08 at price 150. -/
def exC1a : RawFare := ⟨"2025-03-08", some ⟨some 150, some "MAD"⟩, none, none, false⟩

/-- Available fare on 2025-03-04 at the same price 150. -/
def exC1b : RawFare := ⟨"2025-03-04", some ⟨some 150, some "MAD"⟩, none, none, false⟩

/-- A fetched fare set with two equally priced available fares, the later
date listed first, as the provider could order them. -/
def exC1fares : List (Option RawFare) := [some exC1a, some exC1b]

/-- An active alert with target 160 on channel 1. -/
def exAlert160 : Alert := ⟨160, 1, true⟩

/-- An alerts dict with one matching active alert, one active alert below
the lowest price, and one inactive alert. -/
def exAlertsW : AlertMap := [("u", exAlert160), ("v", ⟨100, 2, true⟩), ("w", ⟨300, 3, false⟩)]

/-- A successful fetch whose lowest flight has price 150. -/
def exFetchW : Except Unit (List (Option RawFare)) := Except.ok exC1fares

/-- The lowest flight of exFetchW as get_lowest computes it. -/
def exFlightW : Flight := ⟨"2025-03-08", 150, "MAD", "N/A", "N/A"⟩

/-- One active alert with target 200, owned by user u. -/
def exC2alerts : AlertMap := [("u", ⟨200, 1, true⟩)]

/-- The successful fetch of the previous tick: one available fare at
price 100. -/
def exC2prior : Except Unit (List (Option RawFare)) :=
  Except.ok [some ⟨"2025-03-02", some ⟨some 100, some "MAD"⟩, none, none, false⟩]

/-- A fare flagged unavailable that still carries the nonzero price
150. -/
def exUnavail : RawFare := ⟨"2025-03-08", some ⟨some 150, some "MAD"⟩, none, none, true⟩

/-- An available fare whose price object carries an explicit zero
value. -/
def exZero : RawFare := ⟨"2025-03-09", some ⟨some 0, some "MAD"⟩, none, none, false⟩

/-- Two matched alerts; the send to the first will fail. -/
def exC9matches : AlertMap := [("u1", ⟨160, 5, true⟩), ("u2", ⟨170, 6, true⟩)]

/-- A notifier that fails exactly on user u1. -/
def exC9send : String → Bool := fun u => !(u == "u1")

/-! ## Helper lemmas : the lowest price loop -/

lemma lowestLoop_acc (fares : List (Option RawFare)) :
    ∀ b db cb,
      (lowestLoop fares (some (b, db, cb)) = some (b, db, cb) ∧ IsMinCand fares b)
      ∨ (∃ p d c, lowestLoop fares (some (b, db, cb)) = some (p, d, c) ∧ p < b ∧
          IsMinCand fares p ∧ FirstMinWitness fares p d c) := by
  induction fares with
  | nil =>
    intro b db cb
    left
    exact ⟨rfl, fun f hf => absurd hf (List.not_mem_nil _)⟩
  | cons f? rest ih =>
    intro b db cb
    match f? with
    | none =>
      rcases ih b db cb with ⟨he, hmin⟩ |
        ⟨p, d, c, he, hlt, hmin, pre, g0, post, hdec, hcand, hday, hcur, hpre⟩
      · left
        refine ⟨he, fun f hf v hv => ?_⟩
        rcases List.mem_cons.mp hf with h0 | h0
        · exact absurd h0 (by simp)
        · exact hmin f h0 v hv
      · right
        refine ⟨p, d, c, he, hlt, ?_,
          none :: pre, g0, post, by rw [hdec]; rfl, hcand, hday, hcur, ?_⟩
        · intro f hf v hv
          rcases List.mem_cons.mp hf with h0 | h0
          · exact absurd h0 (by simp)
          · exact hmin f h0 v hv
        · intro g hg w hw
          rcases List.mem_cons.mp hg with h0 | h0
          · exact absurd h0 (by simp)
          · exact hpre g h0 w hw
    | some f =>
      rcases hc : fareCandidate f with _ | v
      · have hred : lowestLoop (some f :: rest) (some (b, db, cb)) =
            lowestLoop rest (some (b, db, cb)) := by
          simp [lowestLoop, hc]
        rcases ih b db cb with ⟨he, hmin⟩ |
          ⟨p, d, c, he, hlt, hmin, pre, g0, post, hdec, hcand, hday, hcur, hpre⟩
        · left
          refine ⟨hred.trans he, fun g hg v hv => ?_⟩
          rcases List.mem_cons.mp hg with h0 | h0
          · cases Option.some.inj h0; rw [hc] at hv; cases hv
          · exact hmin g h0 v hv
        · right
          refine ⟨p, d, c, hred.trans he, hlt, ?_,
            some f :: pre, g0, post, by rw [hdec]; rfl, hcand, hday, hcur, ?_⟩
          · intro g hg v hv
            rcases List.mem_cons.mp hg with h0 | h0
            · cases Option.some.inj h0; rw [hc] at hv; cases hv
            · exact hmin g h0 v hv
          · intro g hg w hw
            rcases List.mem_cons.mp hg with h0 | h0
            · cases Option.some.inj h0; rw [hc] at hw; cases hw
            · exact hpre g h0 w hw
      · by_cases hvb : v < b
        · have hred : lowestLoop (some f :: rest) (some (b, db, cb)) =
              lowestLoop rest (some (v, f.day, fareCurrency f)) := by
            simp [lowestLoop, hc, hvb]
          rcases ih v f.day (fareCurrency f) with ⟨he, hmin⟩ |
            ⟨p, d, c, he, hlt, hmin, pre, g0, post, hdec, hcand, hday, hcur, hpre⟩
          · right
            refine ⟨v, f.day, fareCurrency f, hred.trans he, hvb, ?_,
              [], f, rest, rfl, hc, rfl, rfl, ?_⟩
            · intro g hg w hw
              rcases List.mem_cons.mp hg with h0 | h0
              · cases Option.some.inj h0; rw [hc] at hw
                cases Option.some.inj hw; exact le_refl v
              · exact hmin g h0 w hw
            · intro g hg; exact absurd hg (List.not_mem_nil _)
          · right
            refine ⟨p, d, c, hred.trans he, lt_trans hlt hvb, ?_,
              some f :: pre, g0, post, by rw [hdec]; rfl, hcand, hday, hcur, ?_⟩
            · intro g hg w hw
              rcases List.mem_cons.mp hg with h0 | h0
              · cases Option.some.inj h0; rw [hc] at hw
                cases Option.some.inj hw; exact le_of_lt hlt
              · exact hmin g h0 w hw
            · intro g hg w hw
              rcases List.mem_cons.mp hg with h0 | h0
              · cases Option.some.inj h0; rw [hc] at hw
                cases Option.some.inj hw; exact hlt
              · exact hpre g h0 w hw
        · have hred : lowestLoop (some f :: rest) (some (b, db, cb)) =
              lowestLoop rest (some (b, db, cb)) := by
            simp [lowestLoop, hc, hvb]
          rcases ih b db cb with ⟨he, hmin⟩ |
            ⟨p, d, c, he, hlt, hmin, pre, g0, post, hdec, hcand, hday, hcur, hpre⟩
          · left
            refine ⟨hred.trans he, fun g hg w hw => ?_⟩
            rcases List.mem_cons.mp hg with h0 | h0
            · cases Option.some.inj h0; rw [hc] at hw
              cases Option.some.inj hw; exact le_of_not_lt hvb
            · exact hmin g h0 w hw
          · right
            refine ⟨p, d, c, hred.trans he, hlt, ?_,
              some f :: pre, g0, post, by rw [hdec]; rfl, hcand, hday, hcur, ?_⟩
            · intro g hg w hw
              rcases List.mem_cons.mp hg with h0 | h0
              · cases Option.some.inj h0; rw [hc] at hw
                cases Option.some.inj hw
                exact le_of_lt (lt_of_lt_of_le hlt (le_of_not_lt hvb))
              · exact hmin g h0 w hw
            · intro g hg w hw
              rcases List.mem_cons.mp hg with h0 | h0
              · cases Option.some.inj h0; rw [hc] at hw
                cases Option.some.inj hw
                exact lt_of_lt_of_le hlt (le_of_not_lt hvb)
              · exact hpre g h0 w hw

lemma lowestLoop_none (fares : List (Option RawFare)) :
    (lowestLoop fares none = none ∧ NoCandidate fares)
    ∨ (∃ p d c, lowestLoop fares none = some (p, d, c) ∧
        IsMinCand fares p ∧ FirstMinWitness fares p d c) := by
  induction fares with
  | nil =>
    left
    exact ⟨rfl, fun f hf => absurd hf (List.not_mem_nil _)⟩
  | cons f? rest ih =>
    match f? with
    | none =>
      rcases ih with ⟨he, hnc⟩ |
        ⟨p, d, c, he, hmin, pre, g0, post, hdec, hcand, hday, hcur, hpre⟩
      · left
        refine ⟨he, fun f hf => ?_⟩
        rcases List.mem_cons.mp hf with h0 | h0
        · exact absurd h0 (by simp)
        · exact hnc f h0
      · right
        refine ⟨p, d, c, he, ?_,
          none :: pre, g0, post, by rw [hdec]; rfl, hcand, hday, hcur, ?_⟩
        · intro f hf v hv
          rcases List.mem_cons.mp hf with h0 | h0
          · exact absurd h0 (by simp)
          · exact hmin f h0 v hv
        · intro g hg w hw
          rcases List.mem_cons.mp hg with h0 | h0
          · exact absurd h0 (by simp)
          · exact hpre g h0 w hw
    | some f =>
      rcases hc : fareCandidate f with _ | v
      · have hred : lowestLoop (some f :: rest) none = lowestLoop rest none := by
          simp [lowestLoop, hc]
        rcases ih with ⟨he, hnc⟩ |
          ⟨p, d, c, he, hmin, pre, g0, post, hdec, hcand, hday, hcur, hpre⟩
        · left
          refine ⟨hred.trans he, fun g hg => ?_⟩
          rcases List.mem_cons.mp hg with h0 | h0
          · cases Option.some.inj h0; exact hc
          · exact hnc g h0
        · right
          refine ⟨p, d, c, hred.trans he, ?_,
            some f :: pre, g0, post, by rw [hdec]; rfl, hcand, hday, hcur, ?_⟩
          · intro g hg v hv
            rcases List.mem_cons.mp hg with h0 | h0
            · cases Option.some.inj h0; rw [hc] at hv; cases hv
            · exact hmin g h0 v hv
          · intro g hg w hw
            rcases List.mem_cons.mp hg with h0 | h0
            · cases Option.some.inj h0; rw [hc] at hw; cases hw
            · exact hpre g h0 w hw
      · have hred : lowestLoop (some f :: rest) none =
            lowestLoop rest (some (v, f.day, fareCurrency f)) := by
          simp [lowestLoop, hc]
        rcases lowestLoop_acc rest v f.day (fareCurrency f) with ⟨he, hmin⟩ |
          ⟨p, d, c, he, hlt, hmin, pre, g0, post, hdec, hcand, hday, hcur, hpre⟩
        · right
          refine ⟨v, f.day, fareCurrency f, hred.trans he, ?_,
            [], f, rest, rfl, hc, rfl, rfl, ?_⟩
          · intro g hg w hw
            rcases List.mem_cons.mp hg with h0 | h0
            · cases Option.some.inj h0; rw [hc] at hw
              cases Option.some.inj hw; exact le_refl v
            · exact hmin g h0 w hw
          · intro g hg; exact absurd hg (List.not_mem_nil _)
        · right
          refine ⟨p, d, c, hred.trans he, ?_,
            some f :: pre, g0, post, by rw [hdec]; rfl, hcand, hday, hcur, ?_⟩
          · intro g hg w hw
            rcases List.mem_cons.mp hg with h0 | h0
            · cases Option.some.inj h0; rw [hc] at hw
              cases Option.some.inj hw; exact le_of_lt hlt
            · exact hmin g h0 w hw
          · intro g hg w hw
            rcases List.mem_cons.mp hg with h0 | h0
            · cases Option.some.inj h0; rw [hc] at hw
              cases Option.some.inj hw; exact hlt
            · exact hpre g h0 w hw

/-! ## Helper lemmas : fare selection -/

lemma fmtSelect_eq_some (f? : Option RawFare) (f : RawFare) :
    fmtSelect f? = some f ↔ (f? = some f ∧ ∃ v, specValue f = some v ∧ v ≠ 0) := by
  match f? with
  | none => simp [fmtSelect]
  | some g =>
    constructor
    · intro h
      match hp : g.price with
      | none => simp only [fmtSelect, hp] at h; cases h
      | some p =>
        match hv : p.value with
        | none => simp only [fmtSelect, hp, hv] at h; cases h
        | some v =>
          simp only [fmtSelect, hp, hv] at h
          by_cases h0 : v = 0
          · rw [if_pos h0] at h; cases h
          · rw [if_neg h0] at h
            cases Option.some.inj h
            exact ⟨rfl, v, by simp [specValue, hp, hv], h0⟩
    · rintro ⟨hg, v, hv, h0⟩
      cases Option.some.inj hg
      simp only [specValue] at hv
      match hp : f.price with
      | none => rw [hp] at hv; cases hv
      | some p =>
        rw [hp, Option.some_bind] at hv
        simp only [fmtSelect, hp, hv, if_neg h0]

lemma displaySelect_eq_some (f? : Option RawFare) (f : RawFare) :
    displaySelect f? = some f ↔
      (f? = some f ∧ f.price.isSome = true ∧ f.unavailable = false) := by
  match f? with
  | none => simp [displaySelect]
  | some g =>
    constructor
    · intro h
      match hp : g.price with
      | none => simp only [displaySelect, hp] at h; cases h
      | some p =>
        simp only [displaySelect, hp] at h
        by_cases hu : g.unavailable
        · rw [if_pos hu] at h; cases h
        · rw [if_neg hu] at h
          cases Option.some.inj h
          exact ⟨rfl, by simp [hp], by simpa using hu⟩
    · rintro ⟨hg, hps, hu⟩
      cases Option.some.inj hg
      match hp : f.price with
      | none => rw [hp] at hps; cases hps
      | some p => simp only [displaySelect, hp, hu, if_false, Bool.false_eq_true]

lemma fareCandidate_some (f : RawFare) (v : ℚ) (h : fareCandidate f = some v) :
    f.unavailable = false ∧ specValue f = some v ∧ v ≠ 0 := by
  unfold fareCandidate at h
  by_cases hu : f.unavailable
  · rw [if_pos hu] at h; cases h
  · rw [if_neg hu] at h
    match hp : f.price with
    | none => simp only [hp] at h; cases h
    | some p =>
      simp only [hp] at h
      match hv : p.value with
      | none => simp only [hv] at h; cases h
      | some w =>
        simp only [hv] at h
        by_cases h0 : w = 0
        · rw [if_pos h0] at h; cases h
        · rw [if_neg h0] at h
          cases Option.some.inj h
          exact ⟨by simpa using hu, by simp [specValue, hp, hv], h0⟩

/-! ## Helper lemmas : alerts store -/

lemma lookup_insertAssoc {β : Type} (k : String) (a : β) (m : List (String × β)) :
    List.lookup k (insertAssoc k a m) = some a := by
  induction m with
  | nil => simp [insertAssoc, List.lookup]
  | cons kv rest ih =>
    obtain ⟨k0, v⟩ := kv
    by_cases h : k0 = k
    · simp [insertAssoc, h, List.lookup]
    · simp only [insertAssoc, if_neg h, List.lookup]
      rw [show (k == k0) = false from beq_eq_false_iff_ne.mpr (Ne.symm h)]
      exact ih

lemma cmdAlert_mem (uid : String) (p : ℚ) (ch : Int) (writeOk : Bool) (s : StoreState) :
    (cmdAlert uid p ch writeOk s).1.mem = insertAssoc uid ⟨p, ch, true⟩ s.mem := by
  unfold cmdAlert saveAlerts
  split <;> rfl

lemma botCollect_empty (fares : List (Option RawFare))
    (h : ∀ f : RawFare, some f ∈ fares → (f.price.isSome && !f.unavailable) = false) :
    botCollect fares = Except.ok [] := by
  induction fares with
  | nil => rfl
  | cons f? rest ih =>
    have hrest := ih (fun f hf => h f (List.mem_cons_of_mem _ hf))
    match f? with
    | none => simpa [botCollect] using hrest
    | some f =>
      have hf := h f (List.mem_cons_self _ _)
      simp [botCollect, hf, hrest]

/-! ## Helper lemmas : calendar arithmetic -/

lemma isLeap_iff (y : ℕ) : isLeap y = true ↔ ((y % 4 = 0 ∧ y % 100 ≠ 0) ∨ y % 400 = 0) := by
  simp [isLeap, Bool.or_eq_true, Bool.and_eq_true, beq_iff_eq, bne_iff_ne]

lemma leapsBefore_succ (y : ℕ) :
    leapsBefore (y + 1) = leapsBefore y + (if isLeap (y + 1) then 1 else 0) := by
  by_cases h : isLeap (y + 1) = true
  · have h2 := (isLeap_iff (y + 1)).mp h
    simp only [leapsBefore, h, if_true]
    omega
  · have h2 : ¬ ((y + 1) % 4 = 0 ∧ (y + 1) % 100 ≠ 0) ∧ ¬ (y + 1) % 400 = 0 := by
      have h3 := isLeap_iff (y + 1)
      constructor
      · intro hc; exact h (h3.mpr (Or.inl hc))
      · intro hc; exact h (h3.mpr (Or.inr hc))
    rw [if_neg h]
    simp only [leapsBefore]
    omega

lemma daysBeforeMonth_succ (y m : ℕ) (h1 : 1 ≤ m) (h2 : m ≤ 11) :
    daysBeforeMonth y (m + 1) = daysBeforeMonth y m + daysInMonth y m := by
  interval_cases m <;>
    by_cases h : isLeap y = true <;>
      simp [daysBeforeMonth, daysInMonth, h]

lemma one_le_daysInMonth (y m : ℕ) : 1 ≤ daysInMonth y m := by
  unfold daysInMonth
  repeat' split
  all_goals omega

lemma daysInMonth_twelve (y : ℕ) : daysInMonth y 12 = 31 := by
  norm_num [daysInMonth]

lemma daysBeforeMonth_one (y : ℕ) : daysBeforeMonth y 1 = 0 := by
  norm_num [daysBeforeMonth]

lemma daysBeforeMonth_twelve (y : ℕ) :
    daysBeforeMonth y 12 = 334 + (if isLeap y then 1 else 0) := by
  by_cases h : isLeap y = true <;> simp [daysBeforeMonth, h]

lemma toOrdinal_nextDay (d : Date) (hv : ValidDate d) :
    toOrdinal (nextDay d) = toOrdinal d + 1 := by
  obtain ⟨hy, hm1, hm2, hd1, hd2⟩ := hv
  unfold nextDay
  split
  · simp only [toOrdinal]
    omega
  · rename_i hno
    have hday : d.day = daysInMonth d.year d.month := by omega
    split
    · rename_i hm
      have hsucc := daysBeforeMonth_succ d.year d.month hm1 (by omega)
      simp only [toOrdinal]
      omega
    · rename_i hm
      have hm12 : d.month = 12 := by omega
      have h31 : d.day = 31 := by rw [hday, hm12, daysInMonth_twelve]
      have hls := leapsBefore_succ (d.year - 1)
      have hyy : d.year - 1 + 1 = d.year := by omega
      rw [hyy] at hls
      have hb12 := daysBeforeMonth_twelve d.year
      have hb1 := daysBeforeMonth_one (d.year + 1)
      simp only [toOrdinal, hm12, h31, Nat.add_sub_cancel]
      by_cases hl : isLeap d.year = true
      · rw [if_pos hl] at hls hb12
        simp only [hb1]
        omega
      · rw [if_neg hl] at hls hb12
        simp only [hb1]
        omega

lemma validDate_nextDay (d : Date) (hv : ValidDate d) : ValidDate (nextDay d) := by
  obtain ⟨hy, hm1, hm2, hd1, hd2⟩ := hv
  unfold nextDay
  split
  · rename_i h
    refine ⟨hy, hm1, hm2, ?_, ?_⟩ <;> dsimp only <;> omega
  · split
    · refine ⟨hy, ?_, ?_, ?_, ?_⟩ <;> dsimp only
      · omega
      · rename_i hm; omega
      · omega
      · exact one_le_daysInMonth _ _
    · refine ⟨?_, ?_, ?_, ?_, ?_⟩ <;> dsimp only
      · omega
      · omega
      · omega
      · omega
      · exact one_le_daysInMonth _ _

lemma toOrdinal_addDays (n : ℕ) :
    ∀ d : Date, ValidDate d →
      ValidDate (addDays n d) ∧ toOrdinal (addDays n d) = toOrdinal d + n := by
  induction n with
  | zero => intro d hv; exact ⟨hv, rfl⟩
  | succ k ih =>
    intro d hv
    have hnext := validDate_nextDay d hv
    obtain ⟨hv2, heq⟩ := ih (nextDay d) hnext
    refine ⟨hv2, ?_⟩
    rw [show addDays (k + 1) d = addDays k (nextDay d) from rfl, heq,
      toOrdinal_nextDay d hv]
    omega

/-! ## Claim C1 -/

/-- C1, counterexample. The claim says ties between equal minimum prices
are broken by the earliest date. On a fetched set holding the available
fares (2025-03-08, 150) and (2025-03-04, 150), in that order, the query
answers with date 2025-03-08 although an equally priced available fare
has the strictly earlier date 2025-03-04, so the tie-break component of
the claim fails. -/
theorem C1_counterexample : ¬ C1TieBreak exC1fares := by
  intro h
  have h2 := h 150 "2025-03-08" "MAD" rfl exC1b (by decide) (by decide) (by rfl)
  exact absurd h2 (by decide)

/-- C1, amended. For every fetched fare set, get_current_lowest_price
returns none iff no entry passes the availability filter (present, not
flagged unavailable, truthy price value), and when it returns a triple
the price is the minimum over all candidate values while the day and
currency come from the first entry of the fetched sequence attaining that
minimum, so ties between equal minimum prices are broken by fetch order,
not by earliest date. -/
theorem C1_amended (fares : List (Option RawFare)) :
    (getCurrentLowestPrice (Except.ok fares) = none ↔ NoCandidate fares)
    ∧ (∀ p d c, getCurrentLowestPrice (Except.ok fares) = some (p, d, c) →
        IsMinCand fares p ∧ FirstMinWitness fares p d c) := by
  match fares with
  | [] =>
    constructor
    · simp [getCurrentLowestPrice]
      intro f hf
      exact absurd hf (List.not_mem_nil _)
    · intro p d c h
      simp [getCurrentLowestPrice] at h
  | f0 :: rest =>
    have hred : getCurrentLowestPrice (Except.ok (f0 :: rest)) =
        lowestLoop (f0 :: rest) none := by
      simp [getCurrentLowestPrice]
    rcases lowestLoop_none (f0 :: rest) with ⟨he, hnc⟩ |
      ⟨p, d, c, he, hmin, pre, g0, post, hdec, hcand, hday, hcur, hpre⟩
    · constructor
      · rw [hred, he]
        exact ⟨fun _ => hnc, fun _ => rfl⟩
      · intro p d c h
        rw [hred, he] at h
        cases h
    · constructor
      · rw [hred, he]
        constructor
        · intro h; cases h
        · intro hnc
          have hmem : some g0 ∈ pre ++ some g0 :: post :=
            List.mem_append.mpr (Or.inr (List.mem_cons_self _ _))
          rw [← hdec] at hmem
          rw [hnc g0 hmem] at hcand
          cases hcand
      · intro p1 d1 c1 h
        rw [hred, he] at h
        obtain ⟨hp, hd, hc⟩ : p = p1 ∧ d = d1 ∧ c = c1 := by
          have h1 := Option.some.inj h
          refine ⟨congrArg Prod.fst h1, ?_, ?_⟩
          · exact congrArg Prod.fst (congrArg Prod.snd h1)
          · exact congrArg Prod.snd (congrArg Prod.snd h1)
        subst hp; subst hd; subst hc
        exact ⟨hmin, pre, g0, post, hdec, hcand, hday, hcur, hpre⟩

/-- C1, witness: the amended theorem applied to the concrete fare set of
the counterexample. -/
theorem C1_witness :
    IsMinCand exC1fares 150 ∧ FirstMinWitness exC1fares 150 "2025-03-08" "MAD" :=
  (C1_amended exC1fares).2 150 "2025-03-08" "MAD" rfl

/-! ## Claim C2 -/

/-- C2, counterexample. The claim says a failed fetch is reported as a
fetch error and that the tick still evaluates subscriptions against the
prior snapshot. With an active alert at target 200 and a prior successful
fetch whose lowest price is 100, a tick on that prior snapshot matches
the alert, but a tick whose fetch fails produces no notification at all
and its flight list is identical to the one of a well-formed empty
response, so the failure is swallowed rather than reported and the prior
snapshot is not consulted. -/
theorem C2_counterexample :
    (checkAlerts exC2prior exC2alerts).1 = exC2alerts
    ∧ (checkAlerts (Except.error ()) exC2alerts).1 = []
    ∧ (checkAlerts (Except.error ()) exC2alerts).1 ≠ (checkAlerts exC2prior exC2alerts).1
    ∧ botGetFlights (Except.error ()) = botGetFlights (Except.ok [])
    ∧ getCurrentLowestPrice (Except.error ()) = getCurrentLowestPrice (Except.ok []) := by
  refine ⟨by decide, rfl, by decide, rfl, rfl⟩

/-- C2, amended. A failed fetch is swallowed by the bare except in
get_flights: the flight list is empty and indistinguishable from a
well-formed empty fare set, no snapshot of a previous fetch exists
anywhere in the code, and a tick whose fetch fails generates no
notifications for any subscription while leaving the alerts state
unchanged. -/
theorem C2_amended (alerts : AlertMap) :
    (checkAlerts (Except.error ()) alerts).1 = []
    ∧ (checkAlerts (Except.error ()) alerts).2 = alerts
    ∧ botGetFlights (Except.error ()) = botGetFlights (Except.ok []) :=
  ⟨rfl, rfl, rfl⟩

/-! ## Claim C3 -/

/-- C3, counterexample. The claim says a failed persistence write makes
the whole operation fail and rolls the in-memory state back to the last
durable write. Starting from an empty store and an empty disk, a
subscribe whose write fails still reports success and leaves an in-memory
dict different from the disk content. -/
theorem C3_counterexample :
    (cmdAlert "u" 150 1 false ⟨[], []⟩).2 = true
    ∧ (cmdAlert "u" 150 1 false ⟨[], []⟩).1.mem ≠ (cmdAlert "u" 150 1 false ⟨[], []⟩).1.disk :=
  ⟨rfl, by decide⟩

/-- C3, amended. Subscribe and Unsubscribe always report success; a
failed persistence write is swallowed: the in-memory dict keeps the new
subscription while the disk keeps its old content, so memory and disk
diverge until the next successful write; only when the write succeeds do
memory and disk agree. -/
theorem C3_amended (uid : String) (p : ℚ) (ch : Int) (s : StoreState) :
    (cmdAlert uid p ch false s).2 = true
    ∧ (cmdAlert uid p ch false s).1.disk = s.disk
    ∧ (cmdAlert uid p ch false s).1.mem = insertAssoc uid ⟨p, ch, true⟩ s.mem
    ∧ (cmdStopAlert uid false s).2 = true
    ∧ (cmdStopAlert uid false s).1.disk = s.disk
    ∧ (cmdAlert uid p ch true s).1.disk = (cmdAlert uid p ch true s).1.mem := by
  refine ⟨rfl, rfl, rfl, ?_, ?_, rfl⟩
  · unfold cmdStopAlert
    split <;> rfl
  · unfold cmdStopAlert
    split <;> rfl

/-! ## Claim C4 -/

/-- C4: on every tick on which a lowest fare is determinable, the
notifications generated are exactly the subscriptions that are active and
whose target price is at or above the lowest price; the tick leaves the
alerts state unchanged, so an identical next tick generates the same
notifications again, with no suppression of repeats. -/
theorem C4_theorem (fetch : Except Unit (List (Option RawFare))) (alerts : AlertMap)
    (fl : Flight) (h : botGetLowest fetch = some fl) :
    (∀ ua : String × Alert, ua ∈ (checkAlerts fetch alerts).1 ↔
        (ua ∈ alerts ∧ ua.2.active = true ∧ fl.price ≤ ua.2.price))
    ∧ (checkAlerts fetch alerts).2 = alerts
    ∧ checkAlerts fetch ((checkAlerts fetch alerts).2) = checkAlerts fetch alerts := by
  have hred : checkAlerts fetch alerts = (matchingAlerts fl.price alerts, alerts) := by
    simp [checkAlerts, h]
  refine ⟨?_, by rw [hred], by rw [hred]; exact hred⟩
  intro ua
  rw [hred]
  simp [matchingAlerts, List.mem_filter, Bool.and_eq_true, decide_eq_true_eq, and_assoc]

/-- C4, witness: the theorem applied to a concrete fetch with lowest
price 150 and a dict with a matching active alert at 160. -/
theorem C4_witness :
    (("u", exAlert160) ∈ (checkAlerts exFetchW exAlertsW).1 ↔
        (("u", exAlert160) ∈ exAlertsW ∧ exAlert160.active = true ∧
          exFlightW.price ≤ exAlert160.price))
    ∧ (checkAlerts exFetchW exAlertsW).2 = exAlertsW
    ∧ checkAlerts exFetchW ((checkAlerts exFetchW exAlertsW).2) =
        checkAlerts exFetchW exAlertsW := by
  have h := C4_theorem exFetchW exAlertsW exFlightW (by rfl)
  exact ⟨h.1 ("u", exAlert160), h.2.1, h.2.2⟩

/-! ## Claim C5 -/

/-- C5, counterexample. The claim says fares marked unavailable are never
listed and zero-price fares are never surfaced. The listing of
format_cheapest_fares keeps a fare flagged unavailable with price 150,
the listing of display_flights keeps a fare with an explicit zero price
value, and the Discord bot get_lowest path surfaces a fare with an
explicit zero price value as a zero-price lowest fare. -/
theorem C5_counterexample :
    formatValidFares [some exUnavail] = [exUnavail]
    ∧ exUnavail.unavailable = true
    ∧ displayValidFares [some exZero] = [exZero]
    ∧ specValue exZero = some 0
    ∧ botGetLowest (Except.ok [some exZero]) = some ⟨"2025-03-09", 0, "MAD", "N/A", "N/A"⟩ :=
  ⟨rfl, rfl, rfl, rfl, rfl⟩

/-- C5, amended. The exclusions are not uniform across the downstream
computations. A fare appears in the format_cheapest_fares listing iff it
is a present entry with a present nonzero price value, the unavailable
flag not being consulted there. A fare appears in the display_flights
listing iff it is a present entry with a price object and is not flagged
unavailable, an explicit zero price value not being excluded there. The
Telegram lowest-price query does exclude both: its answer is always
nonzero and always comes from a non-unavailable fare. The Discord bot
comprehension drops unavailable and missing-price-object entries but
applies no zero-value check: a present, non-unavailable fare whose price
object carries any value, zero included, is kept as a flight. -/
theorem C5_amended (fares : List (Option RawFare)) :
    (∀ f : RawFare, f ∈ formatValidFares fares ↔
        (some f ∈ fares ∧ ∃ v, specValue f = some v ∧ v ≠ 0))
    ∧ (∀ f : RawFare, f ∈ displayValidFares fares ↔
        (some f ∈ fares ∧ f.price.isSome = true ∧ f.unavailable = false))
    ∧ (∀ p d c, getCurrentLowestPrice (Except.ok fares) = some (p, d, c) →
        p ≠ 0 ∧ ∃ f : RawFare, some f ∈ fares ∧ f.unavailable = false ∧ specValue f = some p)
    ∧ (∀ (f : RawFare) (v : ℚ) (c : String),
        f.price = some ⟨some v, some c⟩ → f.unavailable = false →
        botCollect [some f] =
          Except.ok [⟨f.day, v, c, sliceTime f.departureDate, sliceTime f.arrivalDate⟩]) := by
  refine ⟨?_, ?_, ?_, ?_⟩
  · intro f
    rw [formatValidFares, List.mem_filterMap]
    constructor
    · rintro ⟨a, ha, hfa⟩
      obtain ⟨haf, hrest⟩ := (fmtSelect_eq_some a f).mp hfa
      exact ⟨haf ▸ ha, hrest⟩
    · rintro ⟨hmem, hrest⟩
      exact ⟨some f, hmem, (fmtSelect_eq_some (some f) f).mpr ⟨rfl, hrest⟩⟩
  · intro f
    rw [displayValidFares, List.mem_filterMap]
    constructor
    · rintro ⟨a, ha, hfa⟩
      obtain ⟨haf, hrest⟩ := (displaySelect_eq_some a f).mp hfa
      exact ⟨haf ▸ ha, hrest⟩
    · rintro ⟨hmem, hrest⟩
      exact ⟨some f, hmem, (displaySelect_eq_some (some f) f).mpr ⟨rfl, hrest⟩⟩
  · intro p d c h
    match fares with
    | [] => simp [getCurrentLowestPrice] at h
    | f0 :: rest =>
      have hred : getCurrentLowestPrice (Except.ok (f0 :: rest)) =
          lowestLoop (f0 :: rest) none := by
        simp [getCurrentLowestPrice]
      rcases lowestLoop_none (f0 :: rest) with ⟨he, hnc⟩ |
        ⟨p1, d1, c1, he, hmin, pre, g0, post, hdec, hcand, hday, hcur, hpre⟩
      · rw [hred, he] at h; cases h
      · rw [hred, he] at h
        have hp1 : p1 = p := congrArg Prod.fst (Option.some.inj h)
        rw [hp1] at hcand
        obtain ⟨hu, hsv, h0⟩ := fareCandidate_some g0 p hcand
        have hmem : some g0 ∈ pre ++ some g0 :: post :=
          List.mem_append.mpr (Or.inr (List.mem_cons_self _ _))
        rw [← hdec] at hmem
        exact ⟨h0, g0, hmem, hu, hsv⟩
  · intro f v c hp hu
    simp only [botCollect, hp, Option.isSome_some, hu, Bool.not_false, Bool.and_self,
      if_true, botFlightOfFare]

/-- C5, witness: the Discord comprehension part of the amended theorem
applied to the concrete zero-price fare, which is kept as a flight with
price zero. -/
theorem C5_witness :
    botCollect [some exZero] =
      Except.ok [⟨exZero.day, 0, "MAD", sliceTime exZero.departureDate,
        sliceTime exZero.arrivalDate⟩] :=
  (C5_amended [some exZero]).2.2.2 exZero 0 "MAD" rfl rfl

/-! ## Claim C6 -/

/-- C6, counterexample. The claim says the query end date equals
windowStart plus windowDays days. For windowStart 2025-03-01 and
flex_days 2 the code computes outboundDateTo as 2025-03-05, which is
windowStart plus four days, not windowStart plus two days. -/
theorem C6_counterexample :
    cheapestFaresDateTo ⟨2025, 3, 1⟩ 2 ≠ addDays 2 ⟨2025, 3, 1⟩ := by decide

/-- C6, amended. For every fetch through get_cheapest_fares with a valid
windowStart, the query sent to the provider has end date equal to
windowStart plus two times flex_days days, since the code multiplies
flex_days by two when building outboundDateTo. -/
theorem C6_amended (d : Date) (n : ℕ) (h : ValidDate d) :
    toOrdinal (cheapestFaresDateTo d n) = toOrdinal d + 2 * n := by
  have h2 := (toOrdinal_addDays (n * 2) d h).2
  rw [cheapestFaresDateTo, h2]
  ring

/-- C6, witness: the amended theorem applied to 2025-03-01 with flex two
days, giving an end date exactly four days later. -/
theorem C6_witness :
    ValidDate ⟨2025, 3, 1⟩ ∧
      toOrdinal (cheapestFaresDateTo ⟨2025, 3, 1⟩ 2) = toOrdinal ⟨2025, 3, 1⟩ + 2 * 2 :=
  ⟨by decide, C6_amended ⟨2025, 3, 1⟩ 2 (by decide)⟩

/-! ## Claim C7 -/

/-- C7: for every subscriber id and every starting state, including one
whose stored subscription is inactive, Subscribe overwrites the entry and
an immediately following lookup returns the just-written subscription
with the new target price and the active flag true; this holds in the
Discord bot (cmd_alert) and in the Telegram bot (set_alert_command). -/
theorem C7_theorem (s : StoreState) (m : TAlertMap) (uid : String) (p : ℚ) (ch : Int)
    (writeOk : Bool) (created : String) :
    List.lookup uid (cmdAlert uid p ch writeOk s).1.mem = some ⟨p, ch, true⟩
    ∧ List.lookup uid (tgSetAlert uid p created m) = some ⟨p, true, created⟩ := by
  constructor
  · rw [cmdAlert_mem]
    exact lookup_insertAssoc uid ⟨p, ch, true⟩ s.mem
  · exact lookup_insertAssoc uid ⟨p, true, created⟩ m

/-! ## Claim C8 -/

/-- C8: when the provider returns a well-formed fare set in which no
entry passes the availability filter (in particular an empty set, or one
whose fares are all flagged unavailable), the tick produces an empty
notification list, the normalization itself succeeds rather than raising,
and the alerts state is untouched. -/
theorem C8_theorem (fares : List (Option RawFare)) (alerts : AlertMap)
    (h : ∀ f : RawFare, some f ∈ fares → (f.price.isSome && !f.unavailable) = false) :
    botCollect fares = Except.ok []
    ∧ (checkAlerts (Except.ok fares) alerts).1 = []
    ∧ (checkAlerts (Except.ok fares) alerts).2 = alerts := by
  have hc := botCollect_empty fares h
  have hlow : botGetLowest (Except.ok fares) = none := by
    simp [botGetLowest, botGetFlights, hc, sortByPrice]
  exact ⟨hc, by simp [checkAlerts, hlow], by simp [checkAlerts, hlow]⟩

/-- C8, witness: the theorem applied to a fare set holding one
unavailable fare, with a nonempty alerts dict. -/
theorem C8_witness :
    botCollect [some exUnavail] = Except.ok []
    ∧ (checkAlerts (Except.ok [some exUnavail]) [("u", exAlert160)]).1 = []
    ∧ (checkAlerts (Except.ok [some exUnavail]) [("u", exAlert160)]).2 =
        [("u", exAlert160)] :=
  C8_theorem [some exUnavail] [("u", exAlert160)] (by
    intro f hf
    rcases List.mem_cons.mp hf with h0 | h0
    · cases Option.some.inj h0; decide
    · exact absurd h0 (List.not_mem_nil _))

/-! ## Claim C9 -/

/-- C9, counterexample. The claim says a notifier failure for one
subscriber does not prevent delivery to the others. In the Discord
delivery loop, with two matched alerts whose channels both resolve and a
send that fails exactly on the first user, nothing at all is delivered:
the failure propagates out of the loop, it is not logged, and the second
user, whose own send would succeed, is skipped. -/
theorem C9_counterexample :
    botDeliver (fun _ => true) exC9send exC9matches = ([], some "u1")
    ∧ exC9send "u2" = true :=
  ⟨by decide, by decide⟩

/-- C9, amended. In the Telegram delivery loop the claim holds: the
attempts of a tick are exactly one send per matched subscription, in
order, each recorded with its own outcome, so one failure is logged, not
retried, and does not prevent the remaining deliveries. In the Discord
delivery loop a send failure aborts everything after it in that tick. -/
theorem C9_amended :
    (∀ (send : String → Bool) (lowestPrice : ℚ) (alerts : TAlertMap),
        tgDeliver send lowestPrice alerts =
          (tgMatching lowestPrice alerts).map (fun ca => (ca.1, send ca.1)))
    ∧ (∀ (getChannel : Int → Bool) (send : String → Bool) (u : String) (a : Alert)
        (rest : AlertMap), getChannel a.channel = true → send u = false →
          botDeliver getChannel send ((u, a) :: rest) = ([], some u)) := by
  constructor
  · intro send lp alerts
    induction alerts with
    | nil => rfl
    | cons ca rest ih =>
      obtain ⟨chat, a⟩ := ca
      by_cases ha : a.active = true
      · by_cases hm : lp ≤ a.targetPrice
        · simp [tgDeliver, tgMatching, List.filter_cons, ha, hm, decide_eq_true_eq] at ih ⊢
          exact ih
        · simp [tgDeliver, tgMatching, List.filter_cons, ha, hm, decide_eq_true_eq] at ih ⊢
          exact ih
      · simp only [Bool.not_eq_true] at ha
        simp [tgDeliver, tgMatching, List.filter_cons, ha] at ih ⊢
        exact ih
  · intro gc send u a rest hgc hsend
    simp [botDeliver, hgc, hsend]

/-- C9, witness: the Discord part of the amended theorem applied to one
matched alert whose channel resolves and whose send fails. -/
theorem C9_witness :
    botDeliver (fun _ => true) (fun _ => false) [("u", exAlert160)] = ([], some "u") :=
  C9_amended.2 (fun _ => true) (fun _ => false) "u" exAlert160 [] rfl rfl

/-! ## Claim C10 -/

/-- C10: when the persisted subscription file exists at startup but
cannot be read or parsed, loading yields the empty subscription set, so
every previously stored subscription is silently discarded whatever the
in-memory state was, and no error escapes; when the file is missing the
previous in-memory dict is kept, and when parsing succeeds its content is
installed. -/
theorem C10_theorem (prev : AlertMap) (parsedOk : AlertMap) :
    loadAlerts true none prev = []
    ∧ loadAlerts false none prev = prev
    ∧ loadAlerts true (some parsedOk) prev = parsedOk :=
  ⟨rfl, rfl, rfl⟩

end Ryanair
